import Mathlib

/-!
Verification of the fallback-orchestration / media-classification core of the
video-generation backend (several near-duplicate Express servers).

The definitions below are a shallow embedding of the JavaScript source:

* `findV` embeds the recursive media-reference scan `find` / `findUrls` used by
  the video chains (`tryVideoModels` in the robust/complete variants,
  `tryRouterVideos` in `index.js`); both use identical string predicates.
* `findImg` embeds the first-match image scan inside `callImageModel`.
* `attemptV` / `attemptR` embed one loop iteration of `tryVideoModels`
  (401/403 throws a fatal auth error) resp. `tryRouterVideos` (every HTTP
  error is logged and the loop continues); `runChainWith` embeds the loop.
* `frameLoop` embeds the frame-synthesis fallback loop, `assembleGif` embeds
  `assembleGifFromDataUrls` (image decoding is the external Jimp capability,
  passed as an oracle), and `generateVideoEp` embeds the body of the
  `/api/generate-video` handler after request validation.
* `jsParseInt`, `jsMax`, `jsMin`, `clampFramesVideo`, `clampFramesFrames`
  embed the JS clamp `Math.min(Math.max(parseInt(frames || 8, 10), 4), hi)`
  with `none` playing the role of `NaN`, and `decRepr` embeds the JS
  number-to-decimal-string conversion used by the template literals.
-/

namespace Ant

/-! ### String predicates used by the extraction heuristics -/

/-- Character class of the JS regexes `[A-Za-z0-9+/=]`. -/
def isB64Char (c : Char) : Bool :=
  (('A' ≤ c && c ≤ 'Z') || ('a' ≤ c && c ≤ 'z') || ('0' ≤ c && c ≤ '9')
    || c = '+' || c = '/' || c = '=')

/-- The JS regex test `/^[A-Za-z0-9+/=]{minLen,}$/.test s`. -/
def b64Run (minLen : Nat) (s : String) : Bool :=
  decide (minLen ≤ s.length) && s.data.all isB64Char

/-- List-level "is a leading segment of" check. -/
def listIsPre : List Char → List Char → Bool
  | [], _ => true
  | _ :: _, [] => false
  | a :: as, b :: bs => a = b && listIsPre as bs

/-- Embedding of `s.startsWith(p)`. -/
def strStartsWith (s p : String) : Bool := listIsPre p.data s.data

/-- Whether a character list begins with `.mp4` followed by `?` or the end. -/
def startsMp4 : List Char → Bool
  | '.' :: 'm' :: 'p' :: '4' :: tl =>
    (match tl with
     | [] => true
     | '?' :: _ => true
     | _ => false)
  | _ => false

/-- Scan for an occurrence of `.mp4(?|$)` anywhere in the list. -/
def mp4TestAux : List Char → Bool
  | [] => false
  | c :: rest => startsMp4 (c :: rest) || mp4TestAux rest

/-- The JS regex test `/\.mp4(\?|$)/.test s`. -/
def mp4Test (s : String) : Bool := mp4TestAux s.data

/-! ### Decimal printing (JS number-to-string for naturals) -/

/-- The character of one decimal digit. -/
def decDigitChar (d : Nat) : Char := Char.ofNat (48 + d)

/-- Little-endian decimal digits, with fuel; `digitsLE n n` is exact. -/
def digitsLE : Nat → Nat → List Nat
  | 0, _ => []
  | f + 1, n => if n = 0 then [] else n % 10 :: digitsLE f (n / 10)

/-- Decimal string of a natural number (the JS `${i}` conversion). -/
def decRepr (n : Nat) : String :=
  if n = 0 then ("0") else ⟨(digitsLE n n).reverse.map decDigitChar⟩

/-- Decimal string of an integer (the JS `String(x)` conversion). -/
def intToString (n : Int) : String :=
  if n < 0 then ("-") ++ decRepr n.natAbs else decRepr n.natAbs

/-! ### Structured values (the tagged-union JSON value the scans walk) -/

/-- A parsed JSON value. Objects keep their keys in declaration order. -/
inductive Json where
  | str (s : String)
  | num (n : Int)
  | jbool (b : Bool)
  | jnull
  | arr (xs : List Json)
  | obj (kvs : List (String × Json))

mutual

/-- The video-side scan `find` / `findUrls` of `tryVideoModels` and
`tryRouterVideos`: collects `data:video...` strings, `.mp4` URLs, and long
runs of encoding-alphabet characters (labeled `video/mp4`). -/
def findV : Json → List String
  | .str s =>
    if s = ("") then []
    else if strStartsWith s ("data:video") then [s]
    else if mp4Test s then [s]
    else if b64Run 200 s then [("data:video/mp4;base64,") ++ s]
    else []
  | .arr xs => findVList xs
  | .obj kvs => findVObj kvs
  | _ => []

/-- `o.forEach(find)` over an array: index order, results appended. -/
def findVList : List Json → List String
  | [] => []
  | x :: xs => findV x ++ findVList xs

/-- `Object.values(o).forEach(find)`: declaration order of the keys. -/
def findVObj : List (String × Json) → List String
  | [] => []
  | kv :: kvs => findV kv.2 ++ findVObj kvs

end

mutual

/-- The image-side scan inside `callImageModel`: first match wins
(`if (found) return`); long alphabet runs are labeled `image/png`. -/
def findImg : Json → Option String
  | .str s =>
    if s = ("") then none
    else if strStartsWith s ("data:image") then some s
    else if b64Run 100 s then some (("data:image/png;base64,") ++ s)
    else none
  | .arr xs => findImgList xs
  | .obj kvs => findImgObj kvs
  | _ => none

/-- First match over an array, in index order. -/
def findImgList : List Json → Option String
  | [] => none
  | x :: xs =>
    match findImg x with
    | some r => some r
    | none => findImgList xs

/-- First match over an object's values, in declaration order. -/
def findImgObj : List (String × Json) → Option String
  | [] => none
  | kv :: kvs =>
    match findImg kv.2 with
    | some r => some r
    | none => findImgObj kvs

end

/-! ### HTTP responses and one backend attempt -/

/-- A 2xx response as the code sees it: the (lowercased) content-type, the
base64 of the raw body bytes, the body decoded as UTF-8 text, and the result
of `JSON.parse(text)` (`none` on parse failure). -/
structure HttpOk where
  ct : String
  b64 : String
  text : String
  json : Option Json

/-- Outcome of one outbound call: a 2xx response, an HTTP error status
(axios throws with `err.response`), or a transport error. -/
inductive CallResult where
  | ok (r : HttpOk)
  | httpErr (status : Nat)
  | netErr

/-- Response classification of the video chains: a `video/` content-type is
returned as one inline data URL without touching the body text; otherwise the
parsed body (or, on parse failure, the raw text string) is scanned with
`findV`. The boolean records whether the JSON-parse path was entered. -/
def classifyVideoResp (r : HttpOk) : Option (List String) × Bool :=
  if strStartsWith r.ct ("video/") then
    (some [("data:") ++ r.ct ++ (";base64,") ++ r.b64], false)
  else
    let parsed := r.json.getD (Json.str r.text)
    let found := findV parsed
    (if found.isEmpty then none else some found, true)

/-- What one chain iteration decides to do. -/
inductive AttemptOut where
  | success (vids : List String)
  | fatal (status : Nat)
  | cont

/-- One iteration of `tryVideoModels` (robust/complete variants): media found
→ return; HTTP 401/403 → throw the fatal auth error; anything else → log and
continue. -/
def attemptV (env : String → CallResult) (m : String) : AttemptOut :=
  match env m with
  | .ok r =>
    match (classifyVideoResp r).1 with
    | some vids => .success vids
    | none => .cont
  | .httpErr s => if s = 401 || s = 403 then .fatal s else .cont
  | .netErr => .cont

/-- One iteration of `tryRouterVideos` (`index.js`): media found → return;
every error, HTTP status included, is logged and the loop continues. -/
def attemptR (env : String → CallResult) (m : String) : AttemptOut :=
  match env m with
  | .ok r =>
    match (classifyVideoResp r).1 with
    | some vids => .success vids
    | none => .cont
  | .httpErr _ => .cont
  | .netErr => .cont

/-- Result of a whole chain run. -/
inductive ChainRes where
  | success (model : String) (vids : List String)
  | fatal (model : String) (status : Nat)
  | exhausted

/-- The fallback-chain loop over the ordered model list; also returns the
trace of models actually invoked, in order. -/
def runChainWith (att : String → AttemptOut) : List String → ChainRes × List String
  | [] => (.exhausted, [])
  | m :: ms =>
    match att m with
    | .success v => (.success m v, [m])
    | .fatal s => (.fatal m s, [m])
    | .cont =>
      let r := runChainWith att ms
      (r.1, m :: r.2)

/-- The configured video-model chain of the robust/complete variants. -/
def VIDEO_MODELS : List String :=
  [("ali-vilab/text-to-video-ms-1.7b"),
   ("damo-vilab/text-to-video"),
   ("stabilityai/stable-video-diffusion-img2vid-xt"),
   ("pesser/stable-video-diffusion")]

/-- The default router-model chain of `index.js`. -/
def DEFAULT_ROUTER_MODELS : List String :=
  [("ali-vilab/text-to-video-ms-1.7b"),
   ("damo-vilab/text-to-video"),
   ("stabilityai/stable-video-diffusion-img2vid-xt"),
   ("runwayml/stable-video-v1")]

/-! ### The image backend call and the frame-synthesis loop -/

/-- How a `callImageModel` invocation can fail: no image-like data in a 2xx
response, an HTTP error status, or a transport error. -/
inductive ImgErr where
  | noImage
  | http (status : Nat)
  | net

/-- `callImageModel`: an `image/` content-type is returned as a data URL;
otherwise the body must parse as JSON and `findImg` must locate an image
reference (on parse failure nothing is scanned); otherwise the call throws. -/
def callImageModel (c : CallResult) : Except ImgErr String :=
  match c with
  | .ok r =>
    if strStartsWith r.ct ("image/") then
      .ok (("data:") ++ r.ct ++ (";base64,") ++ r.b64)
    else
      match r.json with
      | some j =>
        match findImg j with
        | some u => .ok u
        | none => .error .noImage
      | none => .error .noImage
  | .httpErr s => .error (.http s)
  | .netErr => .error .net

/-- The variant prompt of frame `i`: the template literal appending
a space, `--frame`, a space and the decimal index to the base prompt. -/
def variantPrompt (prompt : String) (i : Nat) : String :=
  prompt ++ (" --frame ") ++ decRepr i

/-- The frame-synthesis loop starting at index `i` with `k` frames left:
calls the image backend once per index, strictly sequentially, and aborts on
the first failure. Also returns the trace of prompts actually sent. -/
def frameLoop (imgResp : String → CallResult) (prompt : String) :
    Nat → Nat → Except ImgErr (List String) × List String
  | _, 0 => (.ok [], [])
  | i, k + 1 =>
    let p := variantPrompt prompt i
    match callImageModel (imgResp p) with
    | .error e => (.error e, [p])
    | .ok img =>
      let r := frameLoop imgResp prompt (i + 1) k
      (r.1.map (img :: ·), p :: r.2)

/-! ### Image decoding and GIF assembly -/

/-- A decoded raster image: dimensions plus row-major RGBA payload. -/
structure Img where
  width : Nat
  height : Nat
  data : List Nat

/-- Nearest-neighbour resample of the payload to new dimensions. -/
def resample (img : Img) (w h : Nat) : List Nat :=
  (List.range (w * h)).map fun k =>
    img.data.getD ((k / w * img.height / h) * img.width + (k % w * img.width / w)) 0

/-- `img.resize(w, h)`: the result has exactly the requested dimensions. -/
def resize (img : Img) (w h : Nat) : Img :=
  { width := w, height := h, data := resample img w h }

/-- The assembler's per-frame step: resize only the frames whose dimensions
differ from the canonical ones. -/
def fitTo (w h : Nat) (img : Img) : Img :=
  if img.width = w && img.height = h then img else resize img w h

/-- How assembly can fail. -/
inductive AsmErr where
  | noFrames
  | decodeFailed

/-- An assembled animated image: global dimensions, loop count (0 = forever),
inter-frame delay, quality, and the frames in order. -/
structure Gif where
  width : Nat
  height : Nat
  repeatCount : Nat
  delay : Nat
  quality : Nat
  frames : List Img

/-- Decode every frame in order; `none` as soon as one frame fails. The
decode capability (data-URL slicing / remote fetch + `Jimp.read`) is the
external collaborator, passed as an oracle. -/
def decodeAll (decode : String → Option Img) : List String → Option (List Img)
  | [] => some []
  | u :: us =>
    match decode u with
    | none => none
    | some i => (decodeAll decode us).map (i :: ·)

/-- A placeholder image (never reachable on the success path). -/
def dummyImg : Img := { width := 0, height := 0, data := [] }

/-- `assembleGifFromDataUrls`: reject an empty frame list, decode every frame
(aborting entirely on the first decode failure), take the first frame's
dimensions as canonical, resize the rest to match, and encode all frames in
order into an infinitely looping container. -/
def assembleGif (decode : String → Option Img) (dataUrls : List String)
    (delayMs quality : Nat) : Except AsmErr Gif :=
  if dataUrls.isEmpty then .error .noFrames
  else
    match decodeAll decode dataUrls with
    | none => .error .decodeFailed
    | some imgs =>
      let w := (imgs.headD dummyImg).width
      let h := (imgs.headD dummyImg).height
      .ok { width := w, height := h, repeatCount := 0, delay := delayMs,
            quality := quality, frames := imgs.map (fitTo w h) }

/-! ### The JS `frames` clamp (with NaN modeled as `none`) -/

/-- The JS value found in `req.body.frames`. -/
inductive JsVal where
  | str (s : String)
  | num (n : Int)
  | jsbool (b : Bool)
  | jsnull
  | undef

/-- JS truthiness of such a value. -/
def truthy : JsVal → Bool
  | .str s => !(s = (""))
  | .num n => !(n = 0)
  | .jsbool b => b
  | .jsnull => false
  | .undef => false

/-- JS `String(x)` on such a value. -/
def jsToString : JsVal → String
  | .str s => s
  | .num n => intToString n
  | .jsbool b => if b then ("true") else ("false")
  | .jsnull => ("null")
  | .undef => ("undefined")

/-- The JS whitespace skipped by `parseInt`. -/
def isJsWs (c : Char) : Bool := c = ' ' || c = '\t' || c = '\n' || c = '\r'

/-- Decimal digit test. -/
def isDigitChar (c : Char) : Bool := '0' ≤ c && c ≤ '9'

/-- Value of a run of decimal digits. -/
def digitsToNat (l : List Char) : Nat :=
  l.foldl (fun a c => 10 * a + (c.toNat - 48)) 0

/-- Leading-digit parse: `none` when no digit is present. -/
def parseLeadingDigits (l : List Char) : Option Nat :=
  let ds := l.takeWhile isDigitChar
  if ds.isEmpty then none else some (digitsToNat ds)

/-- JS `parseInt(s, 10)`: skip whitespace, optional sign, leading digits,
ignore the rest; `none` models `NaN`. -/
def jsParseInt (s : String) : Option Int :=
  let l := s.data.dropWhile isJsWs
  match l with
  | '-' :: rest => (parseLeadingDigits rest).map (fun v => -(v : Int))
  | '+' :: rest => (parseLeadingDigits rest).map (fun v => (v : Int))
  | rest => (parseLeadingDigits rest).map (fun v => (v : Int))

/-- JS `Math.max` against a constant: `NaN` propagates. -/
def jsMax (a : Option Int) (b : Int) : Option Int := a.map (fun x => max x b)

/-- JS `Math.min` against a constant: `NaN` propagates. -/
def jsMin (a : Option Int) (b : Int) : Option Int := a.map (fun x => min x b)

/-- The `/api/generate-video` clamp:
`Math.min(Math.max(parseInt(req.body.frames || 8, 10), 4), 16)`. -/
def clampFramesVideo (v : JsVal) : Option Int :=
  let base := if truthy v then v else JsVal.num 8
  jsMin (jsMax (jsParseInt (jsToString base)) 4) 16

/-- The `/api/generate-frames` clamp:
`Math.min(Math.max(parseInt(req.body.frames || 8, 10), 4), 24)`. -/
def clampFramesFrames (v : JsVal) : Option Int :=
  let base := if truthy v then v else JsVal.num 8
  jsMin (jsMax (jsParseInt (jsToString base)) 4) 24

/-- Number of iterations of `for (let i = 0; i < n; i++)` when `n` is the
given JS number: `NaN` (and any non-positive value) gives zero. -/
def jsIterCount : Option Int → Nat
  | none => 0
  | some k => k.toNat

/-! ### The `/api/generate-video` handler body -/

/-- Terminal outcome of one `/api/generate-video` request (after the
provider/token/prompt validations). -/
inductive GenOut where
  | okVideos (model : String) (videos : List String)
  | fatal500 (model : String) (status : Nat)
  | okGif (g : Gif) (frameCount : Nat)
  | frameErr500 (e : ImgErr)
  | asmErr500 (e : AsmErr)

/-- The frame fallback: clamp the frame count, run the synthesis loop, then
assemble the GIF. Returns the outcome plus the trace of image prompts sent. -/
def frameFallback (imgResp : String → CallResult) (decode : String → Option Img)
    (prompt : String) (framesVal : JsVal) : GenOut × List String :=
  let n := jsIterCount (clampFramesVideo framesVal)
  let fr := frameLoop imgResp prompt 0 n
  match fr.1 with
  | .error e => (.frameErr500 e, fr.2)
  | .ok frames =>
    match assembleGif decode frames 120 10 with
    | .error e => (.asmErr500 e, fr.2)
    | .ok g => (.okGif g frames.length, fr.2)

/-- The `/api/generate-video` handler body: run the video chain; a fatal auth
error becomes an immediate 500 naming the model; a success with a non-empty
video list is returned as-is; otherwise the frame fallback runs. Returns the
outcome, the video models invoked, and the image prompts invoked. -/
def generateVideoEp (venv : String → CallResult) (models : List String)
    (imgResp : String → CallResult) (decode : String → Option Img)
    (prompt : String) (framesVal : JsVal) : GenOut × List String × List String :=
  let c := runChainWith (attemptV venv) models
  match c.1 with
  | .fatal m s => (.fatal500 m s, c.2, [])
  | .success m vids =>
    if vids.isEmpty then
      let f := frameFallback imgResp decode prompt framesVal
      (f.1, c.2, f.2)
    else (.okVideos m vids, c.2, [])
  | .exhausted =>
    let f := frameFallback imgResp decode prompt framesVal
    (f.1, c.2, f.2)

/-- The `/api/generate-frames` handler body: clamp to `[4, 24]` and run the
same synthesis loop, returning the frames (or the error) and the prompt
trace. -/
def generateFramesEp (imgResp : String → CallResult) (prompt : String)
    (framesVal : JsVal) : Except ImgErr (List String) × List String :=
  frameLoop imgResp prompt 0 (jsIterCount (clampFramesFrames framesVal))

/-! ### Concrete environments used by witnesses and counterexamples -/

/-- Value of a little-endian digit list. -/
def valLE (l : List Nat) : Nat := l.foldr (fun d acc => d + 10 * acc) 0

/-- The first configured model answers 401; every other one answers 404. -/
def envR401 : String → CallResult := fun m =>
  if m = ("ali-vilab/text-to-video-ms-1.7b") then .httpErr 401 else .httpErr 404

/-- Every video model answers 404 (chain exhausts). -/
def venv404 : String → CallResult := fun _ => .httpErr 404

/-- The image backend always answers with PNG bytes. -/
def imgOkEnv : String → CallResult := fun _ =>
  .ok { ct := ("image/png"), b64 := ("QQ=="), text := (""), json := none }

/-- The image backend always answers 500. -/
def imgBadEnv : String → CallResult := fun _ => .httpErr 500

/-- A decode capability that accepts every frame. -/
def decodeOk : String → Option Img := fun _ =>
  some { width := 2, height := 3, data := [1, 2, 3, 4, 5, 6] }

/-- A decode capability with three solid frames of three different sizes. -/
def decodeW : String → Option Img := fun u =>
  if u = ("a") then some { width := 2, height := 2, data := [1, 2, 3, 4] }
  else if u = ("b") then some { width := 3, height := 1, data := [5, 6, 7] }
  else if u = ("c") then some { width := 1, height := 4, data := [8, 9, 10, 11] }
  else none

/-- A decode capability that rejects every frame. -/
def decodeBad : String → Option Img := fun _ => none

/-- Model `m2` answers raw MP4 bytes; every other model answers 404. -/
def envC2 : String → CallResult := fun m =>
  if m = ("m2") then
    .ok { ct := ("video/mp4"), b64 := ("QUJD"), text := (""), json := none }
  else .httpErr 404

/-! ### Helper lemmas: decimal printing is injective -/

theorem digitsLE_val : ∀ f n, n ≤ f → valLE (digitsLE f n) = n := by
  intro f
  induction f with
  | zero =>
    intro n hn
    interval_cases n
    simp [digitsLE, valLE]
  | succ f ih =>
    intro n hn
    by_cases h0 : n = 0
    · simp [digitsLE, h0, valLE]
    · have hdiv : n / 10 ≤ f := by
        have h1 : n / 10 < n := Nat.div_lt_self (Nat.pos_of_ne_zero h0) (by norm_num)
        omega
      simp only [digitsLE, h0, if_false, valLE, List.foldr]
      have := ih (n / 10) hdiv
      simp only [valLE] at this
      rw [this]
      omega

theorem digitsLE_lt : ∀ f n d, d ∈ digitsLE f n → d < 10 := by
  intro f
  induction f with
  | zero => intro n d hd; simp [digitsLE] at hd
  | succ f ih =>
    intro n d hd
    by_cases h0 : n = 0
    · simp [digitsLE, h0] at hd
    · simp only [digitsLE, h0, if_false, List.mem_cons] at hd
      rcases hd with h | h
      · omega
      · exact ih _ _ h

theorem decDigitChar_toNat : ∀ d, d < 10 → (decDigitChar d).toNat = 48 + d := by decide

theorem decDigitChar_inj {d e : Nat} (hd : d < 10) (he : e < 10)
    (h : decDigitChar d = decDigitChar e) : d = e := by
  have := congrArg Char.toNat h
  rw [decDigitChar_toNat d hd, decDigitChar_toNat e he] at this
  omega

theorem map_decDigitChar_inj : ∀ xs ys : List Nat, (∀ x ∈ xs, x < 10) →
    (∀ y ∈ ys, y < 10) → xs.map decDigitChar = ys.map decDigitChar → xs = ys := by
  intro xs
  induction xs with
  | nil => intro ys _ _ h; cases ys <;> simp_all
  | cons x xs ih =>
    intro ys hxs hys h
    cases ys with
    | nil => simp at h
    | cons y ys =>
      simp only [List.map_cons, List.cons.injEq] at h
      have hx := hxs x (List.mem_cons_self x xs)
      have hy := hys y (List.mem_cons_self y ys)
      have hxy := decDigitChar_inj hx hy h.1
      have := ih ys (fun a ha => hxs a (List.mem_cons_of_mem _ ha))
        (fun a ha => hys a (List.mem_cons_of_mem _ ha)) h.2
      simp [hxy, this]

theorem decRepr_digits_ne_zero {n : Nat} (hn : n ≠ 0) :
    (⟨(digitsLE n n).reverse.map decDigitChar⟩ : String) ≠ ("0") := by
  intro h
  have hdata := congrArg String.data h
  simp only at hdata
  have hrev : (digitsLE n n).reverse = [0] := by
    cases hr : (digitsLE n n).reverse with
    | nil => rw [hr] at hdata; simp at hdata
    | cons d tl =>
      rw [hr] at hdata
      cases tl with
      | nil =>
        simp only [List.map_cons, List.map_nil, List.cons.injEq, and_true] at hdata
        have hd10 : d < 10 := by
          apply digitsLE_lt n n
          have : d ∈ (digitsLE n n).reverse := by rw [hr]; exact List.mem_cons_self d []
          exact List.mem_reverse.mp this
        have : d = 0 := by
          have hch := congrArg Char.toNat hdata
          rw [decDigitChar_toNat d hd10] at hch
          have h48 : ('0').toNat = 48 := rfl
          rw [h48] at hch
          omega
        simp [this]
      | cons e tl2 => simp at hdata
  have hdig : digitsLE n n = [0] := by
    have := congrArg List.reverse hrev
    simpa using this
  have := digitsLE_val n n (Nat.le_refl n)
  rw [hdig] at this
  simp [valLE] at this
  exact hn this.symm

theorem decRepr_inj : ∀ m n : Nat, decRepr m = decRepr n → m = n := by
  intro m n h
  unfold decRepr at h
  by_cases hm : m = 0 <;> by_cases hn : n = 0
  · omega
  · simp only [hm, if_true, hn, if_false] at h
    exact absurd h.symm (decRepr_digits_ne_zero hn)
  · simp only [hm, if_false, hn, if_true] at h
    exact absurd h (decRepr_digits_ne_zero hm)
  · simp only [hm, hn, if_false] at h
    have hdata := congrArg String.data h
    simp only at hdata
    have hmaps := map_decDigitChar_inj (digitsLE m m).reverse (digitsLE n n).reverse
      (fun x hx => digitsLE_lt m m x (List.mem_reverse.mp hx))
      (fun y hy => digitsLE_lt n n y (List.mem_reverse.mp hy)) hdata
    have hlists : digitsLE m m = digitsLE n n := by
      have := congrArg List.reverse hmaps
      simpa using this
    have hv1 := digitsLE_val m m (Nat.le_refl m)
    have hv2 := digitsLE_val n n (Nat.le_refl n)
    rw [hlists] at hv1
    omega

theorem variantPrompt_inj (p : String) : ∀ i j : Nat,
    variantPrompt p i = variantPrompt p j → i = j := by
  intro i j h
  unfold variantPrompt at h
  have hdata := congrArg String.data h
  simp only [String.data_append] at hdata
  have : (decRepr i).data = (decRepr j).data := List.append_cancel_left hdata
  exact decRepr_inj i j (String.ext this)

/-! ### Helper lemmas: the fallback chain -/

theorem runChainWith_skip (att : String → AttemptOut) :
    ∀ (pre rest : List String), (∀ m ∈ pre, att m = .cont) →
    runChainWith att (pre ++ rest) =
      ((runChainWith att rest).1, pre ++ (runChainWith att rest).2) := by
  intro pre
  induction pre with
  | nil => intro rest _; simp
  | cons m ms ih =>
    intro rest h
    have hm : att m = .cont := h m (List.mem_cons_self m ms)
    have hrec := ih rest (fun a ha => h a (List.mem_cons_of_mem _ ha))
    simp only [List.cons_append, runChainWith, hm]
    rw [show ms.append rest = ms ++ rest from rfl, hrec]

theorem runChainWith_success_head (att : String → AttemptOut) (m : String)
    (rest vids : List String) (h : att m = .success vids) :
    runChainWith att (m :: rest) = (.success m vids, [m]) := by
  simp [runChainWith, h]

theorem runChainWith_fatal_head (att : String → AttemptOut) (m : String)
    (rest : List String) (s : Nat) (h : att m = .fatal s) :
    runChainWith att (m :: rest) = (.fatal m s, [m]) := by
  simp [runChainWith, h]

/-! ### Helper lemmas: the frame-synthesis loop -/

theorem frameLoop_trace_pre (imgResp : String → CallResult) (prompt : String) :
    ∀ (k i : Nat), ∃ tl, (frameLoop imgResp prompt i k).2 ++ tl =
      (List.range' i k).map (variantPrompt prompt) := by
  intro k
  induction k with
  | zero => intro i; exact ⟨[], rfl⟩
  | succ k ih =>
    intro i
    have hr : List.range' i (k + 1) = i :: List.range' (i + 1) k := rfl
    rw [hr]
    simp only [frameLoop, List.map_cons]
    cases hc : callImageModel (imgResp (variantPrompt prompt i)) with
    | error e =>
      simp only [hc]
      obtain ⟨tl, htl⟩ := ih (i + 1)
      exact ⟨(frameLoop imgResp prompt (i + 1) k).2 ++ tl, by simp [htl]⟩
    | ok img =>
      simp only [hc]
      obtain ⟨tl, htl⟩ := ih (i + 1)
      exact ⟨tl, by simp [htl]⟩

theorem frameLoop_ok_trace (imgResp : String → CallResult) (prompt : String) :
    ∀ (k i : Nat) (l : List String), (frameLoop imgResp prompt i k).1 = .ok l →
    (frameLoop imgResp prompt i k).2 = (List.range' i k).map (variantPrompt prompt) ∧
      l.length = k := by
  intro k
  induction k with
  | zero =>
    intro i l h
    simp only [frameLoop] at h ⊢
    cases h
    simp
  | succ k ih =>
    intro i l h
    have hr : List.range' i (k + 1) = i :: List.range' (i + 1) k := rfl
    simp only [frameLoop] at h ⊢
    cases hc : callImageModel (imgResp (variantPrompt prompt i)) with
    | error e => rw [hc] at h; simp at h
    | ok img =>
      rw [hc] at h
      simp only at h
      cases hrec : (frameLoop imgResp prompt (i + 1) k).1 with
      | error e => rw [hrec] at h; simp [Except.map] at h
      | ok l2 =>
        rw [hrec] at h
        simp only [Except.map] at h
        cases h
        have := ih (i + 1) l2 hrec
        rw [hr]
        simp [this.1, this.2]

/-! ### Helper lemmas: the extraction heuristics -/

theorem findVList_eq_flatten : ∀ xs : List Json, findVList xs = (xs.map findV).flatten := by
  intro xs
  induction xs with
  | nil => simp [findVList]
  | cons x xs ih => simp [findVList, ih]

theorem findVObj_eq_flatten : ∀ kvs : List (String × Json),
    findVObj kvs = (kvs.map (fun kv => findV kv.2)).flatten := by
  intro kvs
  induction kvs with
  | nil => simp [findVObj]
  | cons kv kvs ih => simp [findVObj, ih]

theorem listIsPre_mem : ∀ p l : List Char, listIsPre p l = true → ∀ c ∈ p, c ∈ l := by
  intro p
  induction p with
  | nil => intro l _ c hc; simp at hc
  | cons a as ih =>
    intro l h c hc
    cases l with
    | nil => simp [listIsPre] at h
    | cons b bs =>
      simp only [listIsPre, Bool.and_eq_true, decide_eq_true_eq] at h
      rcases List.mem_cons.mp hc with rfl | hc2
      · rw [h.1]; exact List.mem_cons_self b bs
      · exact List.mem_cons_of_mem b (ih bs h.2 c hc2)

theorem startsMp4_dot : ∀ l : List Char, startsMp4 l = true → '.' ∈ l := by
  intro l h
  unfold startsMp4 at h
  split at h
  · exact List.mem_cons_self _ _
  · simp at h

theorem mp4TestAux_dot : ∀ l : List Char, mp4TestAux l = true → '.' ∈ l := by
  intro l
  induction l with
  | nil => intro h; simp [mp4TestAux] at h
  | cons c rest ih =>
    intro h
    simp only [mp4TestAux, Bool.or_eq_true] at h
    rcases h with h | h
    · exact startsMp4_dot _ h
    · exact List.mem_cons_of_mem c (ih h)

theorem b64_not_video_pre {s : String} (h : s.data.all isB64Char = true) :
    strStartsWith s ("data:video") = false := by
  by_contra hne
  have hp : listIsPre (("data:video") : String).data s.data = true := by
    revert hne
    unfold strStartsWith
    cases listIsPre (("data:video") : String).data s.data <;> simp
  have hcol : ':' ∈ s.data :=
    listIsPre_mem _ _ hp ':' (by decide)
  have := List.all_eq_true.mp h ':' hcol
  simp [isB64Char] at this

theorem b64_not_image_pre {s : String} (h : s.data.all isB64Char = true) :
    strStartsWith s ("data:image") = false := by
  by_contra hne
  have hp : listIsPre (("data:image") : String).data s.data = true := by
    revert hne
    unfold strStartsWith
    cases listIsPre (("data:image") : String).data s.data <;> simp
  have hcol : ':' ∈ s.data :=
    listIsPre_mem _ _ hp ':' (by decide)
  have := List.all_eq_true.mp h ':' hcol
  simp [isB64Char] at this

theorem b64_not_mp4 {s : String} (h : s.data.all isB64Char = true) :
    mp4Test s = false := by
  by_contra hne
  have hp : mp4TestAux s.data = true := by
    revert hne
    unfold mp4Test
    cases mp4TestAux s.data <;> simp
  have hdot : '.' ∈ s.data := mp4TestAux_dot _ hp
  have := List.all_eq_true.mp h '.' hdot
  simp [isB64Char] at this

theorem length_le_ne_empty {s : String} {k : Nat} (hk : 0 < k) (h : k ≤ s.length) :
    ¬ s = ("") := by
  intro he
  rw [he] at h
  simp [String.length] at h
  omega

theorem append_ne_self {p s : String} (hp : p.length ≠ 0) : ¬ s = p ++ s := by
  intro h
  have := congrArg String.length h
  rw [String.length_append] at this
  omega

/-! ### Helper lemmas: the assembler -/

theorem fitTo_width (w h : Nat) (img : Img) : (fitTo w h img).width = w := by
  unfold fitTo
  split
  · rename_i hc
    simp only [Bool.and_eq_true, decide_eq_true_eq] at hc
    exact hc.1
  · rfl

theorem fitTo_height (w h : Nat) (img : Img) : (fitTo w h img).height = h := by
  unfold fitTo
  split
  · rename_i hc
    simp only [Bool.and_eq_true, decide_eq_true_eq] at hc
    exact hc.2
  · rfl

theorem decodeAll_none (decode : String → Option Img) :
    ∀ (urls : List String) (u : String), u ∈ urls → decode u = none →
    decodeAll decode urls = none := by
  intro urls
  induction urls with
  | nil => intro u hu; simp at hu
  | cons v vs ih =>
    intro u hu hdu
    rcases List.mem_cons.mp hu with rfl | hv
    · simp [decodeAll, hdu]
    · unfold decodeAll
      cases decode v with
      | none => rfl
      | some i => rw [ih u hv hdu]; rfl

/-- Generic form: a success at position `k` (everything before it continuing)
stops the chain right there, with exactly the first `k + 1` models invoked. -/
theorem runChainWith_success_at (att : String → AttemptOut) (pre : List String)
    (m : String) (rest vids : List String) (hpre : ∀ m2 ∈ pre, att m2 = .cont)
    (hm : att m = .success vids) :
    runChainWith att (pre ++ m :: rest) = (.success m vids, pre ++ [m]) := by
  rw [runChainWith_skip att pre (m :: rest) hpre,
    runChainWith_success_head att m rest vids hm]

/-- Generic form: a fatal outcome at position `k` aborts the chain right
there, with exactly the first `k + 1` models invoked. -/
theorem runChainWith_fatal_at (att : String → AttemptOut) (pre : List String)
    (m : String) (rest : List String) (s : Nat)
    (hpre : ∀ m2 ∈ pre, att m2 = .cont) (hm : att m = .fatal s) :
    runChainWith att (pre ++ m :: rest) = (.fatal m s, pre ++ [m]) := by
  rw [runChainWith_skip att pre (m :: rest) hpre,
    runChainWith_fatal_head att m rest s hm]

/-! ### The claims -/

/-- C2: in both chain variants (`tryVideoModels` and `tryRouterVideos`), if
the backend at index `k` yields a success while every earlier backend only
continued, the chain returns that success immediately and exactly the first
`k + 1` backends are invoked — no backend after position `k` is ever
called, so at most one outcome is accepted. -/
theorem c2_success_stops_chain :
    (∀ (venv : String → CallResult) (pre : List String) (m : String)
       (rest vids : List String),
       (∀ m2 ∈ pre, attemptV venv m2 = .cont) →
       attemptV venv m = .success vids →
       runChainWith (attemptV venv) (pre ++ m :: rest) =
         (.success m vids, pre ++ [m])) ∧
    (∀ (venv : String → CallResult) (pre : List String) (m : String)
       (rest vids : List String),
       (∀ m2 ∈ pre, attemptR venv m2 = .cont) →
       attemptR venv m = .success vids →
       runChainWith (attemptR venv) (pre ++ m :: rest) =
         (.success m vids, pre ++ [m])) :=
  ⟨fun venv pre m rest vids hpre hm =>
      runChainWith_success_at (attemptV venv) pre m rest vids hpre hm,
   fun venv pre m rest vids hpre hm =>
      runChainWith_success_at (attemptR venv) pre m rest vids hpre hm⟩

/-- Witness for C2: with `m1` answering 404 and `m2` answering raw MP4
bytes, both chains stop at `m2` and never invoke `m3`. -/
theorem c2_success_stops_chain_witness :
    runChainWith (attemptV envC2) ([("m1")] ++ ("m2") :: [("m3")]) =
      (.success ("m2") [("data:video/mp4;base64,QUJD")], [("m1")] ++ [("m2")]) ∧
    runChainWith (attemptR envC2) ([("m1")] ++ ("m2") :: [("m3")]) =
      (.success ("m2") [("data:video/mp4;base64,QUJD")], [("m1")] ++ [("m2")]) := by
  constructor
  · exact c2_success_stops_chain.1 envC2 [("m1")] ("m2") [("m3")]
      [("data:video/mp4;base64,QUJD")]
      (by intro a ha; rcases List.mem_singleton.mp ha with rfl; rfl) rfl
  · exact c2_success_stops_chain.2 envC2 [("m1")] ("m2") [("m3")]
      [("data:video/mp4;base64,QUJD")]
      (by intro a ha; rcases List.mem_singleton.mp ha with rfl; rfl) rfl

/-- C1, counterexample to the claim as stated: in `tryRouterVideos`
(`index.js`) a 401 from the first backend is NOT fatal — the catch block
logs every `err.response` status and continues — so with the first default
router model answering 401 all four models are invoked, not exactly one. -/
theorem c1_router_counterexample :
    envR401 (("ali-vilab/text-to-video-ms-1.7b")) = .httpErr 401 ∧
    DEFAULT_ROUTER_MODELS.headD ("") = ("ali-vilab/text-to-video-ms-1.7b") ∧
    (runChainWith (attemptR envR401) DEFAULT_ROUTER_MODELS).2.length = 4 := by
  exact ⟨rfl, rfl, rfl⟩

/-- C1 (amended): in `tryVideoModels` (robust/complete variants) an HTTP 401
or 403 at any chain position is fatal: the chain aborts naming the failing
model, no later backend is invoked, and the whole request terminates with
the auth error before the frame fallback (zero image calls). In
`tryRouterVideos` (`index.js`) any HTTP error status, 401/403 included, just
continues to the next backend. -/
theorem c1_auth_fatal_aborts :
    (∀ (venv : String → CallResult) (pre : List String) (m : String)
       (rest : List String) (s : Nat) (imgResp : String → CallResult)
       (decode : String → Option Img) (prompt : String) (framesVal : JsVal),
       (∀ m2 ∈ pre, attemptV venv m2 = .cont) →
       venv m = .httpErr s → (s = 401 ∨ s = 403) →
       runChainWith (attemptV venv) (pre ++ m :: rest) = (.fatal m s, pre ++ [m]) ∧
       generateVideoEp venv (pre ++ m :: rest) imgResp decode prompt framesVal =
         (.fatal500 m s, pre ++ [m], [])) ∧
    (∀ (venv : String → CallResult) (m : String) (s : Nat),
       venv m = .httpErr s → attemptR venv m = .cont) := by
  constructor
  · intro venv pre m rest s imgResp decode prompt framesVal hpre hm hs
    have hatt : attemptV venv m = .fatal s := by
      unfold attemptV
      rw [hm]
      rcases hs with rfl | rfl <;> rfl
    have hchain := runChainWith_fatal_at (attemptV venv) pre m rest s hpre hatt
    refine ⟨hchain, ?_⟩
    unfold generateVideoEp
    rw [hchain]
  · intro venv m s hm
    unfold attemptR
    rw [hm]

/-- Witness for C1 (amended): the first configured model answers 401; the
chain invokes exactly that one model and the endpoint returns the fatal 500
naming it, with zero image-backend calls. -/
theorem c1_auth_fatal_aborts_witness :
    runChainWith (attemptV envR401) VIDEO_MODELS =
      (.fatal ("ali-vilab/text-to-video-ms-1.7b") 401,
        [("ali-vilab/text-to-video-ms-1.7b")]) ∧
    generateVideoEp envR401 VIDEO_MODELS imgOkEnv decodeOk ("p") (.num 8) =
      (.fatal500 ("ali-vilab/text-to-video-ms-1.7b") 401,
        [("ali-vilab/text-to-video-ms-1.7b")], []) := by
  have h := c1_auth_fatal_aborts.1 envR401 [] ("ali-vilab/text-to-video-ms-1.7b")
    [("damo-vilab/text-to-video"),
     ("stabilityai/stable-video-diffusion-img2vid-xt"),
     ("pesser/stable-video-diffusion")] 401 imgOkEnv decodeOk ("p") (.num 8)
    (by intro a ha; simp at ha) rfl (Or.inl rfl)
  exact ⟨h.1, h.2⟩

/-- C7: a response whose content-type begins with `video/` is classified as
inline video bytes without ever entering the JSON-parse / reference-scan
path; that path is entered exactly on the remaining content-types. -/
theorem c7_video_bytes_no_parse :
    ∀ r : HttpOk,
      (strStartsWith r.ct ("video/") = true →
        classifyVideoResp r =
          (some [("data:") ++ r.ct ++ (";base64,") ++ r.b64], false)) ∧
      (strStartsWith r.ct ("video/") = false →
        (classifyVideoResp r).2 = true) := by
  intro r
  constructor
  · intro h; simp [classifyVideoResp, h]
  · intro h; simp [classifyVideoResp, h]

/-- Witness for C7: a concrete `video/mp4` response is returned as one data
URL with the parse flag off. -/
theorem c7_video_bytes_no_parse_witness :
    classifyVideoResp
        { ct := ("video/mp4"), b64 := ("QUJD"), text := (""), json := none } =
      (some [("data:video/mp4;base64,QUJD")], false) := by
  have h := (c7_video_bytes_no_parse
    { ct := ("video/mp4"), b64 := ("QUJD"), text := (""), json := none }).1 rfl
  exact h

/-- C8: the reference scan is a pure function that walks sequences in index
order and objects in declaration order of their keys — the result over an
array or object is the in-order concatenation of the members' results — and
it does not deduplicate: the same `.mp4` URL appearing twice is collected
twice, in first-seen order. -/
theorem c8_traversal_order :
    (∀ xs : List Json, findV (.arr xs) = (xs.map findV).flatten) ∧
    (∀ kvs : List (String × Json),
       findV (.obj kvs) = (kvs.map (fun kv => findV kv.2)).flatten) ∧
    findV (.arr [.str ("http://a/x.mp4"), .str ("http://a/x.mp4")]) =
      [("http://a/x.mp4"), ("http://a/x.mp4")] := by
  refine ⟨?_, ?_, by decide⟩
  · intro xs
    have h : findV (.arr xs) = findVList xs := by simp [findV]
    rw [h, findVList_eq_flatten]
  · intro kvs
    have h : findV (.obj kvs) = findVObj kvs := by simp [findV]
    rw [h, findVObj_eq_flatten]

/-- C9: in the video-side scan a string is collected as an inline blob
(always labeled `video/mp4`) exactly when it consists entirely of
`A-Za-z0-9+/=` characters and is at least 200 long; in the image-side scan
the threshold is 100 and the label is always `image/png` — in both cases
regardless of the blob's actual content. -/
theorem c9_inline_blob_heuristic :
    ∀ s : String,
      ((findV (.str s) = [("data:video/mp4;base64,") ++ s]) ↔
        (s.data.all isB64Char = true ∧ 200 ≤ s.length)) ∧
      ((findImg (.str s) = some (("data:image/png;base64,") ++ s)) ↔
        (s.data.all isB64Char = true ∧ 100 ≤ s.length)) := by
  intro s
  constructor
  · constructor
    · intro h
      by_cases h1 : s = ("")
      · rw [h1] at h; simp [findV] at h
      by_cases h2 : strStartsWith s ("data:video") = true
      · have he : findV (.str s) = [s] := by simp [findV, h1, h2]
        rw [he] at h
        simp only [List.cons.injEq, and_true] at h
        exact absurd h (append_ne_self (by decide))
      by_cases h3 : mp4Test s = true
      · have he : findV (.str s) = [s] := by simp [findV, h1, h2, h3]
        rw [he] at h
        simp only [List.cons.injEq, and_true] at h
        exact absurd h (append_ne_self (by decide))
      by_cases h4 : b64Run 200 s = true
      · simp only [b64Run, Bool.and_eq_true, decide_eq_true_eq] at h4
        exact ⟨h4.2, h4.1⟩
      · have he : findV (.str s) = [] := by simp [findV, h1, h2, h3, h4]
        rw [he] at h
        simp at h
    · rintro ⟨hall, hlen⟩
      have h1 : ¬ s = ("") := length_le_ne_empty (by norm_num) hlen
      have h2 := b64_not_video_pre hall
      have h3 := b64_not_mp4 hall
      have h4 : b64Run 200 s = true := by
        simp [b64Run, hlen, hall]
      simp [findV, h1, h2, h3, h4]
  · constructor
    · intro h
      by_cases h1 : s = ("")
      · rw [h1] at h; simp [findImg] at h
      by_cases h2 : strStartsWith s ("data:image") = true
      · have he : findImg (.str s) = some s := by simp [findImg, h1, h2]
        rw [he] at h
        simp only [Option.some.injEq] at h
        exact absurd h (append_ne_self (by decide))
      by_cases h3 : b64Run 100 s = true
      · simp only [b64Run, Bool.and_eq_true, decide_eq_true_eq] at h3
        exact ⟨h3.2, h3.1⟩
      · have he : findImg (.str s) = none := by simp [findImg, h1, h2, h3]
        rw [he] at h
        simp at h
    · rintro ⟨hall, hlen⟩
      have h1 : ¬ s = ("") := length_le_ne_empty (by norm_num) hlen
      have h2 := b64_not_image_pre hall
      have h3 : b64Run 100 s = true := by
        simp [b64Run, hlen, hall]
      simp [findImg, h1, h2, h3]

set_option maxRecDepth 4000 in
/-- Witness for C9: a 200-character alphabet run is collected as a
`video/mp4` blob and a 100-character one as an `image/png` blob. -/
theorem c9_inline_blob_heuristic_witness :
    findV (.str ⟨List.replicate 200 'A'⟩) =
      [("data:video/mp4;base64,") ++ ⟨List.replicate 200 'A'⟩] ∧
    findImg (.str ⟨List.replicate 100 'B'⟩) =
      some (("data:image/png;base64,") ++ ⟨List.replicate 100 'B'⟩) := by
  constructor
  · exact ((c9_inline_blob_heuristic ⟨List.replicate 200 'A'⟩).1).mpr
      ⟨by decide, by decide⟩
  · exact ((c9_inline_blob_heuristic ⟨List.replicate 100 'B'⟩).2).mpr
      ⟨by decide, by decide⟩

/-- C3, counterexample to the claim as stated: the `/api/generate-video`
handler clamps the requested frame count to `[4, 16]`, not `[4, 24]`; a
request for 30 frames enters the fallback with 16, and with every image call
succeeding exactly 16 frames are synthesized, not 24. -/
theorem c3_video_clamp_counterexample :
    clampFramesVideo (.num 30) = some 16 ∧
    ¬ clampFramesVideo (.num 30) = some 24 ∧
    (generateVideoEp venv404 VIDEO_MODELS imgOkEnv decodeOk ("p")
        (.num 30)).2.2.length = 16 := by
  exact ⟨rfl, by decide, rfl⟩

/-- C3 (amended): only the `/api/generate-frames` handler clamps to
`[4, 24]` (30 → 24 synthesized frames); the `/api/generate-video` handler
clamps to `[4, 16]` (30 → 16). Both clamps stay inside their interval on
every input that parses. -/
theorem c3_clamp_intervals :
    clampFramesFrames (.num 30) = some 24 ∧
    (generateFramesEp imgOkEnv ("p") (.num 30)).2.length = 24 ∧
    clampFramesVideo (.num 30) = some 16 ∧
    (∀ (v : JsVal) (k : Int), clampFramesFrames v = some k → 4 ≤ k ∧ k ≤ 24) ∧
    (∀ (v : JsVal) (k : Int), clampFramesVideo v = some k → 4 ≤ k ∧ k ≤ 16) := by
  refine ⟨rfl, rfl, rfl, ?_, ?_⟩
  · intro v k h
    simp only [clampFramesFrames, jsMin, jsMax] at h
    cases hp : jsParseInt (jsToString (if truthy v = true then v else JsVal.num 8)) with
    | none => rw [hp] at h; simp at h
    | some x =>
      rw [hp] at h
      simp only [Option.map_some', Option.some.injEq] at h
      subst h
      constructor
      · exact le_min (le_max_right x 4) (by norm_num)
      · exact min_le_right _ _
  · intro v k h
    simp only [clampFramesVideo, jsMin, jsMax] at h
    cases hp : jsParseInt (jsToString (if truthy v = true then v else JsVal.num 8)) with
    | none => rw [hp] at h; simp at h
    | some x =>
      rw [hp] at h
      simp only [Option.map_some', Option.some.injEq] at h
      subst h
      constructor
      · exact le_min (le_max_right x 4) (by norm_num)
      · exact min_le_right _ _

/-- Witness for C3 (amended): the bound statements hold at the parsed
request value 30 in both handlers. -/
theorem c3_clamp_intervals_witness :
    ((4 : Int) ≤ 24 ∧ (24 : Int) ≤ 24) ∧ ((4 : Int) ≤ 16 ∧ (16 : Int) ≤ 16) := by
  constructor
  · exact c3_clamp_intervals.2.2.2.1 (.num 30) 24 rfl
  · exact c3_clamp_intervals.2.2.2.2 (.num 30) 16 rfl

/-- C4, counterexample to the claim as stated: a request enters the
fallback with clamped frame count 8, but the very first image call fails
with HTTP 500, so only one image-backend call is issued, not exactly 8. -/
theorem c4_exact_count_counterexample :
    clampFramesVideo (.num 8) = some 8 ∧
    (generateVideoEp venv404 VIDEO_MODELS imgBadEnv decodeOk ("p")
        (.num 8)).2.2 = [("p --frame 0")] := by
  exact ⟨rfl, rfl⟩

/-- C4 (amended): the synthesis loop issues at most `N` image calls,
strictly sequentially — the prompts actually sent are always a leading
segment of the index-ordered variant prompts 0..N-1 — and exactly `N` when
every call succeeds; the variant prompts append the decimal index to the
base prompt and are pairwise distinct. -/
theorem c4_frame_loop_calls :
    ∀ (imgResp : String → CallResult) (prompt : String) (n : Nat),
      (∃ tl, (frameLoop imgResp prompt 0 n).2 ++ tl =
        (List.range n).map (variantPrompt prompt)) ∧
      (frameLoop imgResp prompt 0 n).2.length ≤ n ∧
      (∀ l, (frameLoop imgResp prompt 0 n).1 = .ok l →
        (frameLoop imgResp prompt 0 n).2 =
          (List.range n).map (variantPrompt prompt) ∧ l.length = n) ∧
      ((List.range n).map (variantPrompt prompt)).Nodup := by
  intro imgResp prompt n
  have hrange : List.range n = List.range' 0 n := List.range_eq_range' n
  refine ⟨?_, ?_, ?_, ?_⟩
  · rw [hrange]
    exact frameLoop_trace_pre imgResp prompt n 0
  · obtain ⟨tl, htl⟩ := frameLoop_trace_pre imgResp prompt n 0
    have := congrArg List.length htl
    simp only [List.length_append, List.length_map, List.length_range'] at this
    omega
  · intro l hl
    rw [hrange]
    exact frameLoop_ok_trace imgResp prompt n 0 l hl
  · exact (List.nodup_range n).map
      (fun i j h => variantPrompt_inj prompt i j h)

/-- Witness for C4 (amended): with every image call succeeding and `n = 3`,
the loop sends exactly the three index-ordered variant prompts. -/
theorem c4_frame_loop_calls_witness :
    (frameLoop imgOkEnv ("p") 0 3).2 =
      [("p --frame 0"), ("p --frame 1"), ("p --frame 2")] ∧
    ([("data:image/png;base64,QQ=="), ("data:image/png;base64,QQ=="),
      ("data:image/png;base64,QQ==")] : List String).length = 3 := by
  have h := (c4_frame_loop_calls imgOkEnv ("p") 3).2.2.1
    [("data:image/png;base64,QQ=="), ("data:image/png;base64,QQ=="),
     ("data:image/png;base64,QQ==")] rfl
  exact ⟨h.1.trans rfl, h.2⟩

/-- C5: when the frame list is non-empty and every frame decodes, assembly
succeeds with the first frame's dimensions as the canvas, every frame of the
output fitted to exactly those dimensions, the frames kept in their original
order, and the loop count 0 (loop forever). -/
theorem c5_assembly_canonical_dims :
    ∀ (decode : String → Option Img) (urls : List String) (d q : Nat)
      (imgs : List Img),
      ¬ urls = [] →
      decodeAll decode urls = some imgs →
      assembleGif decode urls d q =
        .ok { width := (imgs.headD dummyImg).width,
              height := (imgs.headD dummyImg).height,
              repeatCount := 0, delay := d, quality := q,
              frames := imgs.map
                (fitTo (imgs.headD dummyImg).width (imgs.headD dummyImg).height) } ∧
      ∀ f ∈ imgs.map
          (fitTo (imgs.headD dummyImg).width (imgs.headD dummyImg).height),
        f.width = (imgs.headD dummyImg).width ∧
        f.height = (imgs.headD dummyImg).height := by
  intro decode urls d q imgs hne hdec
  constructor
  · have hemp : urls.isEmpty = false := by
      cases urls with
      | nil => exact absurd rfl hne
      | cons u us => rfl
    simp [assembleGif, hemp, hdec]
  · intro f hf
    obtain ⟨img, _, hfi⟩ := List.mem_map.mp hf
    rw [← hfi]
    exact ⟨fitTo_width _ _ img, fitTo_height _ _ img⟩

/-- Witness for C5: three solid frames of three different sizes assemble
into a GIF whose every frame has the first frame's 2×2 dimensions. -/
theorem c5_assembly_canonical_dims_witness :
    assembleGif decodeW [("a"), ("b"), ("c")] 120 10 =
      .ok { width := 2, height := 2, repeatCount := 0, delay := 120,
            quality := 10,
            frames := List.map (fitTo 2 2)
              [{ width := 2, height := 2, data := [1, 2, 3, 4] },
               { width := 3, height := 1, data := [5, 6, 7] },
               { width := 1, height := 4, data := [8, 9, 10, 11] }] } := by
  have h := c5_assembly_canonical_dims decodeW [("a"), ("b"), ("c")] 120 10
    [{ width := 2, height := 2, data := [1, 2, 3, 4] },
     { width := 3, height := 1, data := [5, 6, 7] },
     { width := 1, height := 4, data := [8, 9, 10, 11] }]
    (by simp) rfl
  exact h.1

/-- C6: the assembler fails with the empty-input error on an empty frame
sequence, and aborts the whole assembly with a decode error — producing no
partial output — as soon as any single frame fails to decode. -/
theorem c6_assembly_failures :
    (∀ (decode : String → Option Img) (d q : Nat),
       assembleGif decode [] d q = .error .noFrames) ∧
    (∀ (decode : String → Option Img) (urls : List String) (d q : Nat)
       (u : String), u ∈ urls → decode u = none →
       assembleGif decode urls d q = .error .decodeFailed) := by
  constructor
  · intro decode d q; rfl
  · intro decode urls d q u hu hdu
    cases urls with
    | nil => simp at hu
    | cons v vs =>
      have hnone := decodeAll_none decode (v :: vs) u hu hdu
      simp [assembleGif, hnone]

/-- Witness for C6: the empty list is rejected, and one undecodable frame
aborts the whole assembly. -/
theorem c6_assembly_failures_witness :
    assembleGif decodeBad [] 120 10 = .error .noFrames ∧
    assembleGif decodeW [("a"), ("z")] 120 10 = .error .decodeFailed := by
  constructor
  · exact c6_assembly_failures.1 decodeBad 120 10
  · exact c6_assembly_failures.2 decodeW [("a"), ("z")] 120 10 ("z")
      (by simp) rfl

/-- C10: if the video chain exhausts and the `frames` field is truthy but
does not parse as an integer, the clamp evaluates to `NaN`, the synthesis
loop runs zero iterations (no image-backend call at all), and the request
fails with the 500 from the empty-frame-sequence check — it does not fall
back to the default frame count of 8. -/
theorem c10_nan_frames_empty_500 :
    ∀ (venv : String → CallResult) (models : List String)
      (imgResp : String → CallResult) (decode : String → Option Img)
      (prompt : String) (v : JsVal),
      truthy v = true →
      jsParseInt (jsToString v) = none →
      (runChainWith (attemptV venv) models).1 = .exhausted →
      clampFramesVideo v = none ∧
      generateVideoEp venv models imgResp decode prompt v =
        (.asmErr500 .noFrames, (runChainWith (attemptV venv) models).2, []) := by
  intro venv models imgResp decode prompt v ht hp hex
  have hclamp : clampFramesVideo v = none := by
    simp [clampFramesVideo, ht, hp, jsMin, jsMax]
  refine ⟨hclamp, ?_⟩
  have hfb : frameFallback imgResp decode prompt v = (.asmErr500 .noFrames, []) := by
    unfold frameFallback
    rw [hclamp]
    rfl
  unfold generateVideoEp
  cases hc : (runChainWith (attemptV venv) models).1 with
  | success m vids => rw [hc] at hex; cases hex
  | fatal m s => rw [hc] at hex; cases hex
  | exhausted =>
    simp only [hc, hfb]

/-- Witness for C10: all models answer 404 and `frames` is the string
`"abc"`; the request ends in the 500 `No frames to assemble` with zero
image calls instead of using the default of 8 frames. -/
theorem c10_nan_frames_empty_500_witness :
    clampFramesVideo (.str ("abc")) = none ∧
    generateVideoEp venv404 VIDEO_MODELS imgOkEnv decodeOk ("p")
        (.str ("abc")) =
      (.asmErr500 .noFrames, VIDEO_MODELS, []) := by
  have h := c10_nan_frames_empty_500 venv404 VIDEO_MODELS imgOkEnv decodeOk
    ("p") (.str ("abc")) rfl rfl rfl
  exact ⟨h.1, h.2⟩

end Ant
